import Mathlib

/-!
A verification of the record-store layer in `src/python_sqlite.py`: a small
object-relational convenience layer over sqlite.  The embedding has three
parts: the Python scalar values and the type-inference function, the SQL
statement-text builders (faithful to the f-strings in the source), and a
semantic model of the sqlite engine executing exactly the statement shapes
this layer produces (table catalog, rows, literal evaluation, primary keys).
-/

namespace PySqlite

/-- A Python scalar value as it appears in a record handed to the store.
`obj s` stands for a value of an unsupported Python type whose `str()` text is
`s` (Python `None` is `obj "None"`; a sqlite NULL read back through `sqlite3`
is Python `None` as well).  `float s` carries the Python `str()` rendering of
the float: Python guarantees `float(str(x)) == x`, so the rendering is a
faithful stand-in for the float itself. -/
inductive Value where
  | bool (b : Bool)
  | int (n : Int)
  | str (s : String)
  | float (s : String)
  | obj (s : String)
  deriving DecidableEq

/-- Python `str()` on a scalar value: `str(True) = "True"`, `str(-5) = "-5"`,
a string is itself, a float and an unsupported value carry their rendering. -/
def pyStr : Value → String
  | .bool true => "True"
  | .bool false => "False"
  | .int n => toString n
  | .str s => s
  | .float s => s
  | .obj s => s

/-- `_sqlite_type` (src/python_sqlite.py lines 5-17): the sqlite datatype tag
for a Python value.  The `bool` case comes before `int` exactly as in the
Python `match` (a Python bool is a subtype of int, so the order matters in the
source); every unsupported type falls through to the empty string. -/
def _sqlite_type : Value → String
  | .bool _ => "text"
  | .int _ => "integer"
  | .str _ => "text"
  | .float _ => "real"
  | .obj _ => ""

/-- `IDType` (lines 19-21): the primary-key strategy. -/
inductive IDType where
  | SEQUENTIAL
  | UUID4
  deriving DecidableEq

/-- A record: a Python dict in insertion order, field name to scalar value.
Python dict keys are unique, so theorems carry `Nodup` hypotheses where that
uniqueness matters. -/
abbrev Record := List (String × Value)

/-- The id-extraction loop of `push` (lines 97-100) and `update`
(lines 256-259): start from the empty string and, for each item whose key is
`"id"`, replace the accumulator with `str(value)`. -/
def extractId (data : Record) : String :=
  data.foldl (fun acc cv => if cv.1 = "id" then pyStr cv.2 else acc) ""

/-- A serialized SQL literal: a quoted string literal or a bare token. -/
inductive Lit where
  | quoted (s : String)
  | bare (s : String)
  deriving DecidableEq

/-- The value serialization shared by `insert` (lines 212-215) and `update`
(lines 266-269): a value whose inferred type is `"text"` is emitted as a
quoted string literal, every other value — integer and float, but also any
unrecognized type, whose inferred tag is the empty string — is emitted bare. -/
def serializeValue (v : Value) : Lit :=
  if _sqlite_type v = "text" then .quoted (pyStr v) else .bare (pyStr v)

/-- Render a literal into statement text. -/
def renderLit : Lit → String
  | .quoted s => "'" ++ s ++ "'"
  | .bare s => s

/-- Python `str.strip(c)`: remove every leading and every trailing occurrence
of the character `c`. -/
def stripChar (c : Char) (s : String) : String :=
  String.mk (((s.toList.dropWhile (· == c)).reverse.dropWhile (· == c)).reverse)

/-- The column list built by `insert` (lines 200-211): starts empty for
SEQUENTIAL, starts with `id,` for UUID4, then one `name,` per data field. -/
def insertColumns (data : Record) (id_type : IDType) : String :=
  data.foldl (fun acc cv => acc ++ cv.1 ++ ",")
    (match id_type with
      | .SEQUENTIAL => ""
      | .UUID4 => "id,")

/-- The value list built by `insert` (lines 200-215); `uuid` stands for the
`str(uuid4())` drawn in the UUID4 branch. -/
def insertValues (data : Record) (id_type : IDType) (uuid : String) : String :=
  data.foldl (fun acc cv => acc ++ renderLit (serializeValue cv.2) ++ ",")
    (match id_type with
      | .SEQUENTIAL => ""
      | .UUID4 => "'" ++ uuid ++ "',")

/-- The full insert statement text (line 218). -/
def insertSql (table_name : String) (data : Record) (id_type : IDType) (uuid : String) : String :=
  "insert into " ++ table_name ++ "\n  (" ++ stripChar ',' (insertColumns data id_type) ++
    ")\nvalues\n  (" ++ stripChar ',' (insertValues data id_type uuid) ++ ");"

/-- The SET clause built by `update` (lines 264-270): `col = lit,` per field —
including, when present, the `id` field itself — then both ends stripped of
commas. -/
def updateFields (data : Record) : String :=
  stripChar ','
    (data.foldl (fun acc cv => acc ++ cv.1 ++ " = " ++ renderLit (serializeValue cv.2) ++ ",") "")

/-- The full update statement text (line 271): note the newline separators, a
space before but not after the `=` of the where clause, and no trailing
semicolon. -/
def updateSql (table_name : String) (data : Record) : String :=
  "update " ++ table_name ++ "\nset " ++ updateFields data ++ "\nwhere id ='" ++
    extractId data ++ "'"

/-- The full select statement text (line 290): newline separators and no
trailing semicolon. -/
def selectSql (table_name : String) (id : String) : String :=
  "select *\nfrom " ++ table_name ++ "\nwhere id = '" ++ id ++ "'"

/-- The id column definition used by `create_table` (lines 147-155). -/
def idField : IDType → String
  | .SEQUENTIAL => "  \"id\" integer not null unique,\n"
  | .UUID4 => "  \"id\" text not null unique,\n"

/-- The primary-key clause used by `create_table` (lines 147-155). -/
def pkField : IDType → String
  | .SEQUENTIAL => "  primary key(\"id\" autoincrement)\n"
  | .UUID4 => "  primary key(\"id\")\n"

/-- The data-column definitions used by `create_table` (lines 157-160): one
quoted column per schema field, typed by `_sqlite_type`. -/
def dataFields (schema : Record) : String :=
  schema.foldl (fun acc nv => acc ++ "  \"" ++ nv.1 ++ "\" " ++ _sqlite_type nv.2 ++ ",\n") ""

/-- The full create-table statement text (lines 162-164). -/
def createTableSql (table_name : String) (schema : Record) (id_type : IDType) : String :=
  "create table \"" ++ table_name ++ "\" (\n" ++ idField id_type ++ dataFields schema ++
    pkField id_type ++ ");"

/-! ### The semantic store model -/

/-- One stored row: the primary-key value and the data cells by column name. -/
structure SRow where
  rid : Value
  cells : List (String × Value)
  deriving DecidableEq

/-- One table of the store: its primary-key strategy, its data columns (after
the generated `id` column, in creation order), its rows, and the autoincrement
counter behind `sqlite_sequence`. -/
structure Table where
  id_type : IDType
  dataCols : List String
  rows : List SRow
  seq : Int
  deriving DecidableEq

/-- The store: the catalog of tables by name. -/
structure DbState where
  tables : List (String × Table)
  deriving DecidableEq

/-- The errors the layer can surface: the `ValueError` raised by `update` when
no id is found, the Python `IndexError` from `rows[0]` on an empty result set
in `select`, and sqlite engine errors carried with their message. -/
inductive DbError where
  | missingIdentifier
  | indexError
  | sqlError (msg : String)
  deriving DecidableEq

/-- First-match association lookup (a Python dict access / the store catalog
lookup). -/
def alookup {β : Type} (k : String) : List (String × β) → Option β
  | [] => none
  | ab :: rest => if ab.1 = k then some ab.2 else alookup k rest

def lookupTable (st : DbState) (name : String) : Option Table :=
  alookup name st.tables

/-- Replace the table stored under `name`. -/
def setTable (st : DbState) (name : String) (t : Table) : DbState :=
  ⟨st.tables.map (fun nt => if nt.1 = name then (nt.1, t) else nt)⟩

def addTable (st : DbState) (name : String) (t : Table) : DbState :=
  ⟨st.tables ++ [(name, t)]⟩

/-- `table_exists` (lines 107-113): the catalog query against sqlite_master. -/
def table_exists (st : DbState) (table_name : String) : Bool :=
  (lookupTable st table_name).isSome

/-- A Python float rendering: nonempty and built only from digits, signs, a
dot and an exponent marker, so it is a valid bare numeric literal and never
contains a quote or a comma (`str(float("inf")) = "inf"` is rejected, exactly
as sqlite rejects the bare token `inf`). -/
def isFloatRepr (s : String) : Bool :=
  s ≠ "" && s.toList.all (fun c => c.isDigit || c == '.' || c == '-' || c == '+' || c == 'e')

/-- Decimal integer parsing as sqlite's numeric affinity applies it to a text
operand: an optional minus sign and digits. -/
def parseDec (s : String) : Option Int :=
  match s.toList with
  | [] => none
  | c :: t =>
    if c = '-' then
      if t ≠ [] && t.all Char.isDigit then
        some (-(Int.ofNat (t.foldl (fun a d => a * 10 + (d.toNat - 48)) 0)))
      else none
    else
      if (c :: t).all Char.isDigit then
        some (Int.ofNat ((c :: t).foldl (fun a d => a * 10 + (d.toNat - 48)) 0))
      else none

/-- Modelled sqlite behaviour: the stored value resulting from the literal
`serializeValue v` inside an executed statement.
* Text and boolean values arrive as quoted string literals and are stored as
  text — except that an unescaped quote inside the text breaks the statement
  (this layer never escapes; the spec flags the injection gap).
* Integers arrive as bare decimal literals and are stored as integers; floats
  arrive as bare numeric literals and are stored as reals (the rendering is
  checked to be a numeric token).
* An unsupported value arrives as its bare `str()` text (for example `None`),
  which sqlite reads as a column name, not a literal: the statement fails with
  `no such column`.  A repr that happens to look numeric would instead be read
  as a number; no claim exercises that corner and it is not modelled. -/
def litValue : Value → Except DbError Value
  | .bool b => .ok (.str (pyStr (.bool b)))
  | .int n => .ok (.int n)
  | .str s =>
    if s.toList.contains '\'' then .error (.sqlError "syntax error") else .ok (.str s)
  | .float s => if isFloatRepr s then .ok (.float s) else .error (.sqlError "unrecognized token")
  | .obj s => .error (.sqlError ("no such column: " ++ s))

/-- Evaluate every serialized cell of a record through the store, failing on
the first bad literal (sqlite parses the whole statement before executing). -/
def evalCells : Record → Except DbError Record
  | [] => .ok []
  | cv :: rest =>
    match litValue cv.2, evalCells rest with
    | .ok w, .ok ws => .ok ((cv.1, w) :: ws)
    | .error e, _ => .error e
    | _, .error e => .error e

/-- Modelled sqlite comparison `id = '<s>'` against the stored key: a text key
compares as a string; an integer key has integer affinity, which converts the
text operand to a number (a float-shaped operand such as `'1.0'` is not
modelled; every id string this layer produces is a canonical integer or a
uuid). -/
def idMatches (rid : Value) (s : String) : Bool :=
  match rid with
  | .int n => decide (parseDec s = some n)
  | r => decide (pyStr r = s)

def colsContain (cols : List String) (ks : List String) : Bool :=
  ks.all (fun k => cols.contains k)

/-- `create_table` (lines 115-168): a no-op on an empty schema; otherwise the
statement `createTableSql` is executed.  The engine rejects a duplicate column
name — Python dict keys are unique, so the only possible duplicate is the
generated id column colliding with a schema field named `"id"` — and a name
already in the catalog; otherwise it records the new, empty table.  (Which of
the two failures is reported when both apply is not exercised by any claim.) -/
def create_table (st : DbState) (table_name : String) (schema : Record)
    (id_type : IDType) : Except DbError Unit × DbState :=
  if schema.length > 0 then
    if ("id" :: schema.map Prod.fst).Nodup then
      match lookupTable st table_name with
      | some _ =>
        (.error (.sqlError ("table \"" ++ table_name ++ "\" already exists")), st)
      | none =>
        (.ok (), addTable st table_name ⟨id_type, schema.map Prod.fst, [], 0⟩)
    else
      (.error (.sqlError "duplicate column name: id"), st)
  else
    (.ok (), st)

/-- `insert` (lines 170-228): returns `""` without touching the store on an
empty record; otherwise the statement `insertSql` is executed, the new id is
resolved — `last_insert_rowid` for SEQUENTIAL, the pre-drawn uuid for UUID4 —
and the transaction commits.  `uuid` stands for the `str(uuid4())` drawn in
the UUID4 branch (line 207).  When the record itself carries an `"id"` field
the statement names the id column twice for UUID4 (the first, generated value
wins, as in sqlite) or sets the INTEGER PRIMARY KEY explicitly for SEQUENTIAL
(a value that does not convert to an integer is a datatype mismatch). -/
def insert (st : DbState) (table_name : String) (data : Record) (id_type : IDType)
    (uuid : String) : Except DbError String × DbState :=
  if data.length > 0 then
    match lookupTable st table_name with
    | none => (.error (.sqlError ("no such table: " ++ table_name)), st)
    | some tbl =>
      match evalCells data with
      | .error e => (.error e, st)
      | .ok cells =>
        if colsContain ("id" :: tbl.dataCols) (data.map Prod.fst) then
          match id_type with
          | .SEQUENTIAL =>
            match alookup "id" cells with
            | none =>
              (.ok (toString (tbl.seq + 1)),
                setTable st table_name
                  { tbl with
                    rows := tbl.rows ++ [⟨.int (tbl.seq + 1), cells⟩],
                    seq := tbl.seq + 1 })
            | some w =>
              match (match w with
                     | .int n => some n
                     | .str s => parseDec s
                     | _ => none) with
              | some n =>
                if tbl.rows.any (fun r => r.rid == Value.int n) then
                  (.error (.sqlError "UNIQUE constraint failed"), st)
                else
                  (.ok (toString n),
                    setTable st table_name
                      { tbl with
                        rows := tbl.rows ++ [⟨.int n, cells.filter (fun cv => decide (cv.1 ≠ "id"))⟩],
                        seq := max tbl.seq n })
              | none => (.error (.sqlError "datatype mismatch"), st)
          | .UUID4 =>
            if uuid.toList.contains '\'' then (.error (.sqlError "syntax error"), st)
            else if tbl.rows.any (fun r => r.rid == Value.str uuid) then
              (.error (.sqlError "UNIQUE constraint failed"), st)
            else
              (.ok uuid,
                setTable st table_name
                  { tbl with
                    rows := tbl.rows ++ [⟨.str uuid, cells.filter (fun cv => decide (cv.1 ≠ "id"))⟩] })
        else (.error (.sqlError "no such column"), st)
  else
    (.ok "", st)

/-- Set one column of a row's cells (a cell missing so far — a NULL — is
materialized). -/
def setCell (cells : List (String × Value)) (c : String) (w : Value) :
    List (String × Value) :=
  if cells.any (fun cv => cv.1 = c) then
    cells.map (fun cv => if cv.1 = c then (c, w) else cv)
  else cells ++ [(c, w)]

/-- Apply the SET clause of an update to one matched row.  The `id` column is
re-sent by the layer and set like any other (the spec notes it is set to
itself; integer affinity on the id column is not re-applied here — no verified
claim updates a row that matches). -/
def applyUpdate (r : SRow) (cells : Record) : SRow :=
  cells.foldl
    (fun r cv =>
      if cv.1 = "id" then { r with rid := cv.2 }
      else { r with cells := setCell r.cells cv.1 cv.2 })
    r

/-- `update` (lines 230-278): on a non-empty record, extract the id — raising
the `ValueError` of line 262 when none is found — then execute `updateSql`
and commit, returning the id.  Every row whose key matches the id string is
rewritten; zero matching rows is not detected.  On an empty record the whole
body is skipped and Python returns `None`, modelled as `.ok none`. -/
def update (st : DbState) (table_name : String) (data : Record) :
    Except DbError (Option String) × DbState :=
  if data.length > 0 then
    if extractId data = "" then
      (.error .missingIdentifier, st)
    else
      match lookupTable st table_name with
      | none => (.error (.sqlError ("no such table: " ++ table_name)), st)
      | some tbl =>
        match evalCells data with
        | .error e => (.error e, st)
        | .ok cells =>
          if colsContain ("id" :: tbl.dataCols) (data.map Prod.fst) then
            (.ok (some (extractId data)),
              setTable st table_name
                { tbl with
                  rows := tbl.rows.map
                    (fun r => if idMatches r.rid (extractId data) then applyUpdate r cells else r) })
          else (.error (.sqlError "no such column"), st)
  else
    (.ok none, st)

/-- The cell of a row under a column header; a missing cell is a sqlite NULL,
which `sqlite3` hands back as Python `None`. -/
def lookupCell (cells : List (String × Value)) (c : String) : Value :=
  (alookup c cells).getD (.obj "None")

/-- `select` (lines 282-312): execute `selectSql`, fetch all matching rows,
read the column headers, then take `rows[0]` — a Python `IndexError` when no
row matched — and rebuild the record, coercing the `id` column to a string. -/
def select (st : DbState) (table_name : String) (id : String) :
    Except DbError Record × DbState :=
  match lookupTable st table_name with
  | none => (.error (.sqlError ("no such table: " ++ table_name)), st)
  | some tbl =>
    match tbl.rows.filter (fun r => idMatches r.rid id) with
    | [] => (.error .indexError, st)
    | r :: _ =>
      (.ok ((("id" :: tbl.dataCols).zip (r.rid :: tbl.dataCols.map (lookupCell r.cells))).map
        (fun hv => if hv.1 = "id" then (hv.1, Value.str (pyStr hv.2)) else hv)), st)

/-- `push` (lines 61-105): create-then-insert when the table does not exist;
otherwise extract the id from the record and route to `update` when it is
non-empty, to `insert` when it is absent or empty.  `insert` returns a string
and `update` may return Python `None`, so the common result is an optional
string. -/
def push (st : DbState) (table_name : String) (data : Record) (id_type : IDType)
    (uuid : String) : Except DbError (Option String) × DbState :=
  if table_exists st table_name = false then
    match create_table st table_name data id_type with
    | (.ok _, st1) =>
      ((insert st1 table_name data id_type uuid).1.map some,
        (insert st1 table_name data id_type uuid).2)
    | (.error e, st1) => (.error e, st1)
  else
    if extractId data ≠ "" then
      update st table_name data
    else
      ((insert st table_name data id_type uuid).1.map some,
        (insert st table_name data id_type uuid).2)

/-- The connection-holding part of `Database` (lines 23-59): `conn` is the
open sqlite connection or `None`; a connection handle is modelled as a `Nat`. -/
structure Database where
  path : String
  conn : Option Nat
  deriving DecidableEq

/-- `open_conn` (lines 48-52): connect only when no connection is held.
`fresh` stands for the handle `connect(self.path)` would return. -/
def open_conn (db : Database) (fresh : Nat) : Database :=
  if db.conn = none then { db with conn := some fresh } else db

/-- `close_conn` (lines 54-59): when a connection is held, close it and clear
the field; otherwise do nothing. -/
def close_conn (db : Database) : Database :=
  if db.conn = none then db else { db with conn := none }

/-- A value that survives serialization and the engine's literal evaluation
unchanged: an integer, a well-formed float, or a quote-free string.  Booleans
are excluded — they are stored as the text `True`/`False` and do not come back
as booleans — and so are unsupported values, whose bare rendering fails. -/
def goodCell : Value → Bool
  | .int _ => true
  | .float s => isFloatRepr s
  | .str s => !(s.toList.contains '\'')
  | _ => false

/-- One `col = literal` piece of an update SET clause. -/
def pieceStr (cv : String × Value) : String :=
  cv.1 ++ " = " ++ renderLit (serializeValue cv.2)

/-- Pieces joined with a trailing comma after each, as the building loops of
`insert` and `update` produce before stripping. -/
def trailJoin : List String → String
  | [] => ""
  | p :: ps => p ++ "," ++ trailJoin ps

/-- Pieces joined with a comma between consecutive pieces (no trailing one). -/
def sepByComma : List String → String
  | [] => ""
  | [p] => p
  | p :: ps => p ++ "," ++ sepByComma ps

/-- A piece that comma-stripping cannot eat into: nonempty, and neither its
first nor its last character is a comma. -/
def chunkOk (s : String) : Bool :=
  decide (s.toList ≠ []) && decide (s.toList.head? ≠ some ',') &&
    decide (s.toList.getLast? ≠ some ',')

/-- Modelled from the spec: the update statement shape section 6 of the spec
gives — `update <name> set <col>=<val>, … where id = '<id>';` — written from
the spec's words (single spaces, a space on both sides of the `=` of the
where clause, a trailing semicolon) for comparison with `updateSql`. -/
def specUpdateShape (name : String) (fields : String) (id : String) : String :=
  "update " ++ name ++ " set " ++ fields ++ " where id = '" ++ id ++ "';"

/-- Modelled from the spec: the select statement shape section 6 of the spec
gives — `select * from <name> where id = '<id>';` — for comparison with
`selectSql`. -/
def specSelectShape (name : String) (id : String) : String :=
  "select * from " ++ name ++ " where id = '" ++ id ++ "';"

/-! ### Helper lemmas -/

theorem extractId_of_no_id (data : Record) (h : "id" ∉ data.map Prod.fst) :
    extractId data = "" := by
  have aux : ∀ (l : Record) (acc : String), "id" ∉ l.map Prod.fst →
      l.foldl (fun acc cv => if cv.1 = "id" then pyStr cv.2 else acc) acc = acc := by
    intro l
    induction l with
    | nil => intro acc _; rfl
    | cons cv rest ih =>
      intro acc h
      simp only [List.map_cons, List.mem_cons] at h
      push_neg at h
      have hne : ¬ cv.1 = "id" := fun e => h.1 e.symm
      simp only [List.foldl_cons, hne, if_false]
      exact ih acc h.2
  exact aux data "" h

theorem litValue_good (v : Value) (h : goodCell v = true) : litValue v = .ok v := by
  cases v with
  | int n => rfl
  | float s =>
    simp only [goodCell] at h
    simp [litValue, h]
  | str s =>
    simp only [goodCell, Bool.not_eq_true'] at h
    have hmem : ('\'' : Char) ∉ s.toList := by
      intro hm
      have hc : s.toList.contains '\'' = true :=
        List.contains_iff_exists_mem_beq.mpr ⟨_, hm, by simp⟩
      rw [h] at hc
      exact Bool.noConfusion hc
    simp [litValue, hmem]
    exact hmem
  | bool b => simp [goodCell] at h
  | obj s => simp [goodCell] at h

theorem evalCells_good (data : Record) (h : ∀ cv ∈ data, goodCell cv.2 = true) :
    evalCells data = .ok data := by
  induction data with
  | nil => rfl
  | cons cv rest ih =>
    have h1 := h cv (List.mem_cons_self cv rest)
    have h2 : ∀ x ∈ rest, goodCell x.2 = true := fun x hx => h x (List.mem_cons_of_mem cv hx)
    simp [evalCells, litValue_good cv.2 h1, ih h2]

theorem alookup_none_of_no_key {β : Type} (l : List (String × β)) (k : String)
    (h : k ∉ l.map Prod.fst) : alookup k l = none := by
  induction l with
  | nil => rfl
  | cons ab rest ih =>
    simp only [List.map_cons, List.mem_cons] at h
    push_neg at h
    have hne : ¬ ab.1 = k := fun e => h.1 e.symm
    simp only [alookup, hne, if_false]
    exact ih h.2

theorem colsContain_cons_self (c : String) (ks : List String) :
    colsContain (c :: ks) ks = true := by
  simp only [colsContain, List.all_eq_true]
  intro k hk
  simp [List.contains_cons, List.elem_eq_mem, hk]

theorem alookup_append_single {β : Type} (l : List (String × β)) (k : String) (b : β)
    (h : alookup k l = none) : alookup k (l ++ [(k, b)]) = some b := by
  induction l with
  | nil => simp [alookup]
  | cons ab rest ih =>
    by_cases hk : ab.1 = k
    · simp [alookup, hk] at h
    · simp only [List.cons_append, alookup, hk, if_false] at h ⊢
      exact ih h

theorem alookup_map_set {β : Type} (l : List (String × β)) (k : String) (b : β)
    (h : (alookup k l).isSome = true) :
    alookup k (l.map (fun ab => if ab.1 = k then (ab.1, b) else ab)) = some b := by
  induction l with
  | nil => simp [alookup] at h
  | cons ab rest ih =>
    by_cases hk : ab.1 = k
    · simp [alookup, hk]
    · simp only [alookup, hk, if_false] at h
      simp only [List.map_cons, hk, if_false, alookup]
      exact ih h

theorem map_set_self {β : Type} (l : List (String × β)) (k : String) (b : β)
    (hnd : (l.map Prod.fst).Nodup) (h : alookup k l = some b) :
    l.map (fun ab => if ab.1 = k then (ab.1, b) else ab) = l := by
  induction l with
  | nil => rfl
  | cons ab rest ih =>
    obtain ⟨a, v⟩ := ab
    simp only [List.map_cons, List.nodup_cons] at hnd
    by_cases hk : a = k
    · subst hk
      simp only [alookup, if_pos rfl] at h
      have hb : v = b := by simpa using h
      subst hb
      simp only [List.map_cons, if_pos rfl]
      have step : ∀ ab' ∈ rest,
          (if (ab' : String × β).1 = a then (ab'.1, v) else ab') = ab' := by
        intro ab' hmem
        have hne : ab'.1 ≠ a := fun e => hnd.1 (e ▸ List.mem_map_of_mem Prod.fst hmem)
        rw [if_neg hne]
      rw [List.map_congr_left step]
      simp
    · simp only [alookup, hk, if_false] at h
      simp only [List.map_cons, hk, if_false]
      rw [ih hnd.2 h]

theorem setTable_self (st : DbState) (name : String) (tbl : Table)
    (hnd : (st.tables.map Prod.fst).Nodup) (h : lookupTable st name = some tbl) :
    setTable st name tbl = st := by
  show DbState.mk _ = st
  rw [map_set_self st.tables name tbl hnd h]

theorem zip_self_map {α β : Type} (l : List α) (f : α → β) :
    l.zip (l.map f) = l.map (fun a => (a, f a)) := by
  induction l with
  | nil => rfl
  | cons a rest ih => simp [List.zip_cons_cons, ih]

theorem map_key_lookup (data : Record) (hnd : (data.map Prod.fst).Nodup) :
    (data.map Prod.fst).map (fun k => (k, lookupCell data k)) = data := by
  induction data with
  | nil => rfl
  | cons cv rest ih =>
    obtain ⟨c, v⟩ := cv
    simp only [List.map_cons, List.nodup_cons] at hnd ⊢
    have hhead : lookupCell ((c, v) :: rest) c = v := by
      simp [lookupCell, alookup]
    rw [hhead]
    have step : ∀ k ∈ rest.map Prod.fst,
        (fun k => (k, lookupCell ((c, v) :: rest) k)) k = (fun k => (k, lookupCell rest k)) k := by
      intro k hk
      have hck : ¬ c = k := fun e => hnd.1 (e ▸ hk)
      simp only [lookupCell, alookup, hck, if_false]
    rw [List.map_congr_left step, ih hnd.2]

theorem filter_no_id (data : Record) (h : "id" ∉ data.map Prod.fst) :
    data.filter (fun cv => decide (cv.1 ≠ "id")) = data := by
  induction data with
  | nil => rfl
  | cons cv rest ih =>
    simp only [List.map_cons, List.mem_cons] at h
    push_neg at h
    have hne : cv.1 ≠ "id" := fun e => h.1 e.symm
    have hstep : List.filter (fun cv => decide (cv.1 ≠ "id")) (cv :: rest) =
        cv :: List.filter (fun cv => decide (cv.1 ≠ "id")) rest := by
      simp [List.filter_cons, hne]
    rw [hstep, ih h.2]

/-- Inserting a non-empty, id-free, well-valued record into a freshly created
empty table stores exactly the record and returns rowid 1 (SEQUENTIAL) or the
drawn uuid (UUID4). -/
theorem insert_into_empty_table (st1 : DbState) (name : String) (data : Record)
    (strat : IDType) (uuid : String) (tbl0 : Table)
    (hlk : lookupTable st1 name = some tbl0)
    (hrows : tbl0.rows = [])
    (hseq : tbl0.seq = 0)
    (hne : data ≠ [])
    (hev : evalCells data = .ok data)
    (hcols : colsContain ("id" :: tbl0.dataCols) (data.map Prod.fst) = true)
    (halo : alookup "id" data = none)
    (hid : "id" ∉ data.map Prod.fst)
    (huuid : uuid.toList.contains '\'' = false) :
    insert st1 name data strat uuid =
      match strat with
      | .SEQUENTIAL =>
        (.ok (toString (1 : Int)),
          setTable st1 name { tbl0 with rows := [⟨.int 1, data⟩], seq := 1 })
      | .UUID4 =>
        (.ok uuid, setTable st1 name { tbl0 with rows := [⟨.str uuid, data⟩] }) := by
  unfold insert
  rw [if_pos (List.length_pos.mpr hne)]
  split
  · next heq => rw [hlk] at heq; cases heq
  · next tbl2 heq =>
    rw [hlk] at heq
    obtain rfl : tbl0 = tbl2 := Option.some.inj heq
    split
    · next e heq2 => rw [hev] at heq2; cases heq2
    · next cells2 heq2 =>
      rw [hev] at heq2
      obtain rfl : data = cells2 := Except.ok.inj heq2
      rw [if_pos hcols]
      cases strat with
      | SEQUENTIAL =>
        rw [halo, hrows, hseq]
        rfl
      | UUID4 =>
        rw [if_neg (by rw [huuid]; simp)]
        rw [hrows]
        simp only [List.any_nil, Bool.false_eq_true, if_false]
        rw [filter_no_id data hid]
        rfl

/-- Selecting by an id that matches the single row of a table returns that
row's record, id coerced to a string, columns in table order. -/
theorem select_single_row (st2 : DbState) (name : String) (tbl1 : Table) (rv : Value)
    (data : Record) (rid : String)
    (hlk : lookupTable st2 name = some tbl1)
    (hrows : tbl1.rows = [⟨rv, data⟩])
    (hcols : tbl1.dataCols = data.map Prod.fst)
    (hmatch : idMatches rv rid = true)
    (hpy : pyStr rv = rid)
    (hnd : (data.map Prod.fst).Nodup)
    (hid : "id" ∉ data.map Prod.fst) :
    select st2 name rid = (.ok (("id", Value.str rid) :: data), st2) := by
  unfold select
  split
  · next heq => rw [hlk] at heq; cases heq
  · next tbl2 heq =>
    rw [hlk] at heq
    obtain rfl : tbl1 = tbl2 := Option.some.inj heq
    have hf : tbl1.rows.filter (fun r => idMatches r.rid rid) = [⟨rv, data⟩] := by
      rw [hrows]
      simp [List.filter_cons, hmatch]
    simp only [hf]
    rw [hcols, List.zip_cons_cons, zip_self_map, List.map_cons]
    rw [if_pos rfl]
    have hmap : ∀ x ∈ (data.map Prod.fst).map (fun k => (k, lookupCell data k)),
        (if (x : String × Value).1 = "id" then (x.1, Value.str (pyStr x.2)) else x) = x := by
      intro x hx
      obtain ⟨k, hk, rfl⟩ := List.mem_map.mp hx
      refine if_neg ?_
      intro e
      exact hid (e ▸ hk)
    rw [List.map_congr_left hmap]
    have hfin : ((data.map Prod.fst).map (fun k => (k, lookupCell data k))).map
        (fun x : String × Value => x) = data := by
      rw [show ((data.map Prod.fst).map (fun k => (k, lookupCell data k))).map
          (fun x : String × Value => x) =
          (data.map Prod.fst).map (fun k => (k, lookupCell data k)) by simp]
      exact map_key_lookup data hnd
    rw [hfin, hpy]

/-! ### The claims -/

/-- C4: `_sqlite_type` is a deterministic total mapping on scalar values:
booleans to the text tag and never to the integer tag, integers to integer,
strings to text, floats to real, and any unsupported value to the empty
tag. -/
theorem sqlite_type_total_mapping :
    (∀ b, _sqlite_type (.bool b) = "text" ∧ _sqlite_type (.bool b) ≠ "integer") ∧
    (∀ n, _sqlite_type (.int n) = "integer") ∧
    (∀ s, _sqlite_type (.str s) = "text") ∧
    (∀ s, _sqlite_type (.float s) = "real") ∧
    (∀ s, _sqlite_type (.obj s) = "") := by
  have hne : ("text" : String) ≠ "integer" := by decide
  exact ⟨fun _ => ⟨rfl, hne⟩, fun _ => rfl, fun _ => rfl, fun _ => rfl, fun _ => rfl⟩

/-- C4 witness: the mapping evaluated at `True`. -/
theorem sqlite_type_total_mapping_witness :
    _sqlite_type (.bool true) = "text" ∧ _sqlite_type (.bool true) ≠ "integer" :=
  sqlite_type_total_mapping.1 true

/-- C2 (code bug in the source): `select` with zero matching rows does not
fail with an explicit NotFound error — the source indexes `rows[0]` into the
empty result set and dies with a Python `IndexError`. -/
theorem select_zero_rows_index_error :
    select ⟨[("npcs", ⟨.SEQUENTIAL, ["name"], [], 0⟩)]⟩ "npcs" "1" =
      (.error .indexError, ⟨[("npcs", ⟨.SEQUENTIAL, ["name"], [], 0⟩)]⟩) := by
  rfl

/-- C3 counterexample: `update` on the empty record does not fail with
`MissingIdentifier` — the `len(data.keys()) > 0` guard skips the whole body
and the call silently returns `None`. -/
theorem update_empty_record_silent_none :
    update ⟨[]⟩ "npcs" [] = (.ok none, ⟨[]⟩) ∧
    update ⟨[]⟩ "npcs" [] ≠ (.error .missingIdentifier, ⟨[]⟩) :=
  ⟨rfl, fun h => Except.noConfusion (congrArg Prod.fst h)⟩

/-- C3 amended: every NON-empty record without an `"id"` field makes `update`
raise the `MissingIdentifier` ValueError before any statement is built or
executed, leaving the store unchanged; the empty record instead skips the
whole body and returns `None`. -/
theorem update_missing_id_raises (st : DbState) (name : String) (data : Record)
    (hne : data ≠ []) (hid : "id" ∉ data.map Prod.fst) :
    update st name data = (.error .missingIdentifier, st) := by
  have hlen : data.length > 0 := List.length_pos.mpr hne
  have hext : extractId data = "" := extractId_of_no_id data hid
  simp [update, hlen, hext]

/-- C3 witness: a one-field record without an id. -/
theorem update_missing_id_raises_witness :
    update ⟨[]⟩ "npcs" [("name", Value.str "Helga")] = (.error .missingIdentifier, ⟨[]⟩) :=
  update_missing_id_raises ⟨[]⟩ "npcs" [("name", Value.str "Helga")] (by decide) (by decide)

/-- C6 (code bug in the source): pushing a record that carries an `id` field
to a table that does not exist yet does not strip the id — `create_table`
emits the generated primary-key `id` column AND a data column named `id`, the
engine rejects the duplicate column name, so no table is created and the
insert never happens. -/
theorem push_fresh_table_with_id_duplicate_column :
    push ⟨[]⟩ "npcs" [("id", Value.str "1"), ("name", Value.str "Helga")] .SEQUENTIAL "u" =
      (.error (.sqlError "duplicate column name: id"), ⟨[]⟩) ∧
    createTableSql "npcs" [("id", Value.str "1"), ("name", Value.str "Helga")] .SEQUENTIAL =
      "create table \"npcs\" (\n  \"id\" integer not null unique,\n  \"id\" text,\n  \"name\" text,\n  primary key(\"id\" autoincrement)\n);" := by
  exact ⟨rfl, by decide⟩

/-- C7 counterexample: a value of an unrecognized type is not emitted as a
quoted string literal — its inferred tag is `""`, not `"text"`, so the shared
serialization of `insert` and `update` emits its `str()` text bare: Python
`None` becomes the bare token `None` inside the statement. -/
theorem unrecognized_value_serialized_bare :
    serializeValue (.obj "None") = .bare "None" ∧
    renderLit (serializeValue (.obj "None")) = "None" ∧
    Lit.bare "None" ≠ Lit.quoted "None" ∧
    insertSql "t" [("a", Value.obj "None")] .SEQUENTIAL "u" =
      "insert into t\n  (a)\nvalues\n  (None);" := by
  exact ⟨by decide, by decide, by decide, by decide⟩

/-- C7 amended: in the serialization shared by `insert` and `update`, text and
boolean values are emitted as quoted string literals, while integer, float AND
unrecognized values are emitted as bare tokens. -/
theorem serialize_text_bool_quoted_others_bare :
    (∀ s, serializeValue (.str s) = .quoted s) ∧
    (∀ b, serializeValue (.bool b) = .quoted (pyStr (.bool b))) ∧
    (∀ n, serializeValue (.int n) = .bare (toString n)) ∧
    (∀ s, serializeValue (.float s) = .bare s) ∧
    (∀ s, serializeValue (.obj s) = .bare s) :=
  ⟨fun _ => rfl, fun _ => rfl, fun _ => rfl, fun _ => rfl, fun _ => rfl⟩

/-- C10: connection management is idempotent — opening while open leaves the
connection object unchanged, closing while disconnected does nothing, after
any close the stored connection is `None`, and open/close repeat in any order
without error. -/
theorem conn_management_idempotent :
    (∀ (db : Database) (c fresh : Nat), db.conn = some c → open_conn db fresh = db) ∧
    (∀ (db : Database), db.conn = none → close_conn db = db) ∧
    (∀ (db : Database), (close_conn db).conn = none) ∧
    (∀ (db : Database) (f g : Nat), open_conn (open_conn db f) g = open_conn db f) ∧
    (∀ (db : Database), close_conn (close_conn db) = close_conn db) := by
  refine ⟨?_, ?_, ?_, ?_, ?_⟩
  · intro db c fresh h; simp [open_conn, h]
  · intro db h; simp [close_conn, h]
  · intro db; by_cases h : db.conn = none <;> simp [close_conn, h]
  · intro db f g; by_cases h : db.conn = none <;> simp [open_conn, h]
  · intro db; by_cases h : db.conn = none <;> simp [close_conn, h]

/-- C1: `push` routes purely by (table-exists?, id-present?): when the table
does not exist it runs `create_table` and then `insert` (a creation failure
propagates and the insert never runs); when the table exists and the record
carries an id whose string form is non-empty it runs `update`, and a
successful update returns exactly that id; when the table exists and the id
is absent or its string form empty it runs `insert` with the strategy. -/
theorem push_routes_by_existence_and_id (st : DbState) (name : String) (data : Record)
    (strat : IDType) (uuid : String) :
    (table_exists st name = false →
      push st name data strat uuid =
        match create_table st name data strat with
        | (.ok _, st1) =>
          ((insert st1 name data strat uuid).1.map some, (insert st1 name data strat uuid).2)
        | (.error e, st1) => (.error e, st1)) ∧
    (table_exists st name = true → extractId data ≠ "" →
      push st name data strat uuid = update st name data ∧
      (∀ x st2, update st name data = (.ok x, st2) → x = some (extractId data))) ∧
    (table_exists st name = true → extractId data = "" →
      push st name data strat uuid =
        ((insert st name data strat uuid).1.map some, (insert st name data strat uuid).2)) := by
  refine ⟨?_, ?_, ?_⟩
  · intro h
    unfold push
    rw [if_pos h]
  · intro h1 h2
    refine ⟨?_, ?_⟩
    · unfold push
      rw [if_neg (by simp [h1]), if_pos h2]
    · intro x st2 hu
      have hne : data ≠ [] := by
        intro e
        exact h2 (by simp [e, extractId])
      unfold update at hu
      rw [if_pos (List.length_pos.mpr hne), if_neg h2] at hu
      split at hu
      · exact Except.noConfusion (congrArg Prod.fst hu)
      · split at hu
        · exact Except.noConfusion (congrArg Prod.fst hu)
        · split at hu
          · have hfst := congrArg Prod.fst hu
            exact (Except.ok.inj hfst).symm
          · exact Except.noConfusion (congrArg Prod.fst hu)
  · intro h1 h2
    unfold push
    rw [if_neg (by simp [h1]), if_neg (by simp [h2])]

/-- C1 witness: the three routes at concrete states — a fresh store, a store
whose table exists with an id-bearing record, and the same store with an
id-free record. -/
theorem push_routes_by_existence_and_id_witness :
    push ⟨[]⟩ "t" [("a", Value.int 1)] .SEQUENTIAL "u" =
      ((insert (create_table ⟨[]⟩ "t" [("a", Value.int 1)] .SEQUENTIAL).2 "t"
          [("a", Value.int 1)] .SEQUENTIAL "u").1.map some,
        (insert (create_table ⟨[]⟩ "t" [("a", Value.int 1)] .SEQUENTIAL).2 "t"
          [("a", Value.int 1)] .SEQUENTIAL "u").2) ∧
    push ⟨[("t", ⟨.SEQUENTIAL, ["a"], [], 0⟩)]⟩ "t"
        [("id", Value.str "1"), ("a", Value.int 2)] .SEQUENTIAL "u" =
      update ⟨[("t", ⟨.SEQUENTIAL, ["a"], [], 0⟩)]⟩ "t"
        [("id", Value.str "1"), ("a", Value.int 2)] ∧
    push ⟨[("t", ⟨.SEQUENTIAL, ["a"], [], 0⟩)]⟩ "t" [("a", Value.int 2)] .SEQUENTIAL "u" =
      ((insert ⟨[("t", ⟨.SEQUENTIAL, ["a"], [], 0⟩)]⟩ "t" [("a", Value.int 2)]
          .SEQUENTIAL "u").1.map some,
        (insert ⟨[("t", ⟨.SEQUENTIAL, ["a"], [], 0⟩)]⟩ "t" [("a", Value.int 2)]
          .SEQUENTIAL "u").2) :=
  ⟨((push_routes_by_existence_and_id ⟨[]⟩ "t" [("a", Value.int 1)] .SEQUENTIAL "u").1
      rfl).trans rfl,
   ((push_routes_by_existence_and_id ⟨[("t", ⟨.SEQUENTIAL, ["a"], [], 0⟩)]⟩ "t"
      [("id", Value.str "1"), ("a", Value.int 2)] .SEQUENTIAL "u").2.1 rfl (by decide)).1,
   (push_routes_by_existence_and_id ⟨[("t", ⟨.SEQUENTIAL, ["a"], [], 0⟩)]⟩ "t"
      [("a", Value.int 2)] .SEQUENTIAL "u").2.2 rfl rfl⟩

/-- C9: for a record carrying a non-empty id, `update` executes and commits
unconditionally and returns `str(record["id"])` even when no row matches that
id — the zero-row update is not detected, raises no NotFound-style error, and
leaves the store exactly as it was. -/
theorem update_zero_rows_undetected (st : DbState) (name : String) (data : Record)
    (tbl : Table) (cells : Record)
    (hnd : (st.tables.map Prod.fst).Nodup)
    (htbl : lookupTable st name = some tbl)
    (hid : extractId data ≠ "")
    (hev : evalCells data = .ok cells)
    (hcols : colsContain ("id" :: tbl.dataCols) (data.map Prod.fst) = true)
    (hnom : ∀ r ∈ tbl.rows, idMatches r.rid (extractId data) = false) :
    update st name data = (.ok (some (extractId data)), st) := by
  have hne : data ≠ [] := by
    intro e
    exact hid (by simp [e, extractId])
  unfold update
  rw [if_pos (List.length_pos.mpr hne), if_neg hid]
  split
  · next heq => rw [htbl] at heq; cases heq
  · next tbl2 heq =>
    rw [htbl] at heq
    obtain rfl : tbl = tbl2 := Option.some.inj heq
    split
    · next e heq2 => rw [hev] at heq2; cases heq2
    · next cells2 heq2 =>
      rw [hev] at heq2
      obtain rfl : cells = cells2 := Except.ok.inj heq2
      rw [if_pos hcols]
      have hrows : tbl.rows.map
          (fun r => if idMatches r.rid (extractId data) = true then applyUpdate r cells else r) =
          tbl.rows := by
        have step : ∀ r ∈ tbl.rows,
            (if idMatches r.rid (extractId data) = true then applyUpdate r cells else r) = r := by
          intro r hr
          rw [if_neg (by simp [hnom r hr])]
        rw [List.map_congr_left step]
        simp
      rw [hrows]
      have heta : ({ tbl with rows := tbl.rows } : Table) = tbl := rfl
      rw [heta, setTable_self st name tbl hnd htbl]

/-- C9 witness: updating id 2 in a table whose only row has id 1 succeeds,
returns "2", and changes nothing. -/
theorem update_zero_rows_undetected_witness :
    update ⟨[("npcs", ⟨.SEQUENTIAL, ["name"], [⟨.int 1, [("name", Value.str "W")]⟩], 1⟩)]⟩
        "npcs" [("id", Value.str "2"), ("name", Value.str "x")] =
      (.ok (some "2"),
        ⟨[("npcs", ⟨.SEQUENTIAL, ["name"], [⟨.int 1, [("name", Value.str "W")]⟩], 1⟩)]⟩) :=
  update_zero_rows_undetected
    ⟨[("npcs", ⟨.SEQUENTIAL, ["name"], [⟨.int 1, [("name", Value.str "W")]⟩], 1⟩)]⟩
    "npcs" [("id", Value.str "2"), ("name", Value.str "x")]
    ⟨.SEQUENTIAL, ["name"], [⟨.int 1, [("name", Value.str "W")]⟩], 1⟩
    [("id", Value.str "2"), ("name", Value.str "x")]
    (by decide) rfl (by decide) rfl (by decide) (by decide)

/-- C10 witness: an open connection stays as it is, a closed one stays
closed. -/
theorem conn_management_idempotent_witness :
    open_conn ⟨"src/test5.db", some 1⟩ 2 = ⟨"src/test5.db", some 1⟩ ∧
    close_conn ⟨"src/test5.db", none⟩ = ⟨"src/test5.db", none⟩ :=
  ⟨conn_management_idempotent.1 ⟨"src/test5.db", some 1⟩ 1 2 rfl,
   conn_management_idempotent.2.1 ⟨"src/test5.db", none⟩ rfl⟩

/-- C5 counterexample: the insert/select round trip is not the identity on
boolean fields — after inserting a record with `has_license = True`, select
returns the text `"True"` (booleans are serialized as quoted text and stored
in a text column), which is not the inserted boolean. -/
theorem roundtrip_bool_comes_back_text :
    (create_table ⟨[]⟩ "emp" [("has_license", Value.bool true)] .SEQUENTIAL).1 = .ok () ∧
    insert (create_table ⟨[]⟩ "emp" [("has_license", Value.bool true)] .SEQUENTIAL).2 "emp"
        [("has_license", Value.bool true)] .SEQUENTIAL "u" =
      (.ok "1",
        ⟨[("emp", ⟨.SEQUENTIAL, ["has_license"],
          [⟨.int 1, [("has_license", Value.str "True")]⟩], 1⟩)]⟩) ∧
    select ⟨[("emp", ⟨.SEQUENTIAL, ["has_license"],
          [⟨.int 1, [("has_license", Value.str "True")]⟩], 1⟩)]⟩ "emp" "1" =
      (.ok [("id", Value.str "1"), ("has_license", Value.str "True")],
        ⟨[("emp", ⟨.SEQUENTIAL, ["has_license"],
          [⟨.int 1, [("has_license", Value.str "True")]⟩], 1⟩)]⟩) ∧
    Value.str "True" ≠ Value.bool true :=
  ⟨rfl, rfl, rfl, by decide⟩

/-- C5 amended: for every non-empty record whose keys are distinct and do not
include `id`, and whose values are integers, well-formed floats or quote-free
strings (booleans excluded: they come back as text, see the counterexample),
creating the table from the record and inserting it returns an id under either
strategy, and selecting that id returns exactly the inserted record — every
non-id field with its native stored value — prefixed by the id as a string. -/
theorem insert_select_roundtrip_amended (st : DbState) (name : String) (data : Record)
    (strat : IDType) (uuid : String)
    (hfresh : lookupTable st name = none)
    (hne : data ≠ [])
    (hkeys : ("id" :: data.map Prod.fst).Nodup)
    (hval : ∀ cv ∈ data, goodCell cv.2 = true)
    (huuid : uuid.toList.contains '\'' = false) :
    ∃ rid st2,
      (create_table st name data strat).1 = .ok () ∧
      insert (create_table st name data strat).2 name data strat uuid = (.ok rid, st2) ∧
      select st2 name rid = (.ok (("id", Value.str rid) :: data), st2) := by
  have hlen : data.length > 0 := List.length_pos.mpr hne
  have hnd2 := List.nodup_cons.mp hkeys
  have hev : evalCells data = .ok data := evalCells_good data hval
  have hcols : colsContain ("id" :: data.map Prod.fst) (data.map Prod.fst) = true :=
    colsContain_cons_self _ _
  have halo : alookup "id" data = none := alookup_none_of_no_key data "id" hnd2.1
  have hcreate : create_table st name data strat =
      (.ok (), addTable st name ⟨strat, data.map Prod.fst, [], 0⟩) := by
    unfold create_table
    rw [if_pos hlen, if_pos hkeys]
    split
    · next heq => rw [hfresh] at heq; cases heq
    · rfl
  have hlk1 : lookupTable (addTable st name ⟨strat, data.map Prod.fst, [], 0⟩) name =
      some ⟨strat, data.map Prod.fst, [], 0⟩ :=
    alookup_append_single st.tables name _ hfresh
  have hins := insert_into_empty_table
    (addTable st name ⟨strat, data.map Prod.fst, [], 0⟩) name data strat uuid
    ⟨strat, data.map Prod.fst, [], 0⟩ hlk1 rfl rfl hne hev hcols halo hnd2.1 huuid
  cases strat with
  | SEQUENTIAL =>
    refine ⟨toString (1 : Int),
      setTable (addTable st name ⟨.SEQUENTIAL, data.map Prod.fst, [], 0⟩) name
        ⟨.SEQUENTIAL, data.map Prod.fst, [⟨.int 1, data⟩], 1⟩, ?_, ?_, ?_⟩
    · rw [hcreate]
    · rw [hcreate]
      exact hins
    · refine select_single_row _ name
        ⟨.SEQUENTIAL, data.map Prod.fst, [⟨.int 1, data⟩], 1⟩ (.int 1) data
        (toString (1 : Int)) ?_ rfl rfl (by decide) rfl hnd2.2 hnd2.1
      unfold lookupTable setTable
      apply alookup_map_set
      rw [show alookup name (addTable st name
        (⟨.SEQUENTIAL, data.map Prod.fst, [], 0⟩ : Table)).tables =
          some ⟨.SEQUENTIAL, data.map Prod.fst, [], 0⟩ from hlk1]
      rfl
  | UUID4 =>
    refine ⟨uuid,
      setTable (addTable st name ⟨.UUID4, data.map Prod.fst, [], 0⟩) name
        ⟨.UUID4, data.map Prod.fst, [⟨.str uuid, data⟩], 0⟩, ?_, ?_, ?_⟩
    · rw [hcreate]
    · rw [hcreate]
      exact hins
    · refine select_single_row _ name
        ⟨.UUID4, data.map Prod.fst, [⟨.str uuid, data⟩], 0⟩ (.str uuid) data
        uuid ?_ rfl rfl (by simp [idMatches, pyStr]) rfl hnd2.2 hnd2.1
      unfold lookupTable setTable
      apply alookup_map_set
      rw [show alookup name (addTable st name
        (⟨.UUID4, data.map Prod.fst, [], 0⟩ : Table)).tables =
          some ⟨.UUID4, data.map Prod.fst, [], 0⟩ from hlk1]
      rfl

/-- C5 witness: the npc record of the repository's own example script, pushed
to a fresh SEQUENTIAL table and selected back. -/
theorem insert_select_roundtrip_amended_witness :
    ∃ rid st2,
      (create_table ⟨[]⟩ "npcs"
        [("name", Value.str "Willy the Goblin"), ("health", Value.float "67.8"),
          ("gold", Value.int 999)] .SEQUENTIAL).1 = .ok () ∧
      insert (create_table ⟨[]⟩ "npcs"
          [("name", Value.str "Willy the Goblin"), ("health", Value.float "67.8"),
            ("gold", Value.int 999)] .SEQUENTIAL).2 "npcs"
          [("name", Value.str "Willy the Goblin"), ("health", Value.float "67.8"),
            ("gold", Value.int 999)] .SEQUENTIAL "u" = (.ok rid, st2) ∧
      select st2 "npcs" rid =
        (.ok (("id", Value.str rid) ::
          [("name", Value.str "Willy the Goblin"), ("health", Value.float "67.8"),
            ("gold", Value.int 999)]), st2) :=
  insert_select_roundtrip_amended ⟨[]⟩ "npcs"
    [("name", Value.str "Willy the Goblin"), ("health", Value.float "67.8"),
      ("gold", Value.int 999)] .SEQUENTIAL "u"
    rfl (by decide) (by decide) (by decide) (by decide)

theorem toList_append (a b : String) : (a ++ b).toList = a.toList ++ b.toList := by
  show (a ++ b).data = a.data ++ b.data
  exact String.data_append a b

theorem chunkOk_iff (s : String) : chunkOk s = true ↔
    s.toList ≠ [] ∧ s.toList.head? ≠ some ',' ∧ s.toList.getLast? ≠ some ',' := by
  simp [chunkOk, Bool.and_eq_true, and_assoc]

theorem head?_append_left {α : Type} (l1 l2 : List α) (h : l1 ≠ []) :
    (l1 ++ l2).head? = l1.head? := by
  cases l1 with
  | nil => cases h rfl
  | cons a t => rfl

theorem dropWhile_of_head_ne (l : List Char) (h : l.head? ≠ some ',') :
    l.dropWhile (· == ',') = l := by
  cases l with
  | nil => rfl
  | cons a t =>
    have ha : (a == ',') = false := by
      simp only [List.head?_cons, ne_eq, Option.some.injEq] at h
      simp [h]
    simp [List.dropWhile_cons, ha]

theorem sepByComma_chunkOk (ps : List String) (hne : ps ≠ [])
    (h : ∀ p ∈ ps, chunkOk p = true) : chunkOk (sepByComma ps) = true := by
  induction ps with
  | nil => cases hne rfl
  | cons p rest ih =>
    cases rest with
    | nil => exact h p (List.mem_cons_self p [])
    | cons q rest2 =>
      have hp := (chunkOk_iff p).mp (h p (List.mem_cons_self _ _))
      have hrest : chunkOk (sepByComma (q :: rest2)) = true :=
        ih (by simp) (fun x hx => h x (List.mem_cons_of_mem _ hx))
      have hr := (chunkOk_iff _).mp hrest
      rw [chunkOk_iff]
      have hlist : (sepByComma (p :: q :: rest2)).toList =
          p.toList ++ (",".toList ++ (sepByComma (q :: rest2)).toList) := by
        show (p ++ "," ++ sepByComma (q :: rest2)).toList = _
        rw [toList_append, toList_append, List.append_assoc]
      refine ⟨?_, ?_, ?_⟩
      · rw [hlist]
        simp [hp.1]
      · rw [hlist, head?_append_left _ _ hp.1]
        exact hp.2.1
      · rw [hlist]
        rw [List.getLast?_append_of_ne_nil _ (by simp)]
        rw [List.getLast?_append_of_ne_nil _ hr.1]
        exact hr.2.2

theorem stripChar_comma_append (s : String) (h : chunkOk s = true) :
    stripChar ',' (s ++ ",") = s := by
  obtain ⟨h1, h2, h3⟩ := (chunkOk_iff s).mp h
  unfold stripChar
  rw [toList_append]
  obtain ⟨a, t, hat⟩ : ∃ a t, s.toList = a :: t := by
    cases hs : s.toList with
    | nil => exact absurd hs h1
    | cons a t => exact ⟨a, t, rfl⟩
  rw [hat]
  have ha : (a == ',') = false := by
    rw [hat] at h2
    simp only [List.head?_cons, ne_eq, Option.some.injEq] at h2
    simp [h2]
  have hstep1 : ((a :: t) ++ ",".toList).dropWhile (· == ',') = a :: (t ++ [',']) := by
    show ((a :: (t ++ [','])) : List Char).dropWhile (· == ',') = _
    simp [List.dropWhile_cons, ha]
  rw [hstep1]
  have hrev : (a :: (t ++ [','])).reverse = ',' :: (a :: t).reverse := by
    simp
  rw [hrev]
  have hstep2 : (',' :: (a :: t).reverse).dropWhile (· == ',') =
      ((a :: t).reverse).dropWhile (· == ',') := by
    simp [List.dropWhile_cons]
  rw [hstep2]
  have hlast : ((a :: t).reverse).head? ≠ some ',' := by
    rw [List.head?_reverse]
    rw [hat] at h3
    exact h3
  rw [dropWhile_of_head_ne _ hlast, List.reverse_reverse, ← hat]
  rfl

theorem foldl_piece_append (data : Record) (init : String) :
    data.foldl (fun acc cv => acc ++ cv.1 ++ " = " ++ renderLit (serializeValue cv.2) ++ ",")
      init = init ++ trailJoin (data.map pieceStr) := by
  induction data generalizing init with
  | nil => simp [trailJoin, String.append_empty]
  | cons cv rest ih =>
    simp only [List.foldl_cons, List.map_cons, trailJoin]
    rw [ih]
    simp [pieceStr, String.append_assoc]

theorem trailJoin_eq_sep (ps : List String) (h : ps ≠ []) :
    trailJoin ps = sepByComma ps ++ "," := by
  induction ps with
  | nil => cases h rfl
  | cons p rest ih =>
    cases rest with
    | nil => simp [trailJoin, sepByComma, String.append_empty]
    | cons q rest2 =>
      have hone : trailJoin (p :: q :: rest2) = p ++ "," ++ trailJoin (q :: rest2) := rfl
      have hsep : sepByComma (p :: q :: rest2) = p ++ "," ++ sepByComma (q :: rest2) := rfl
      rw [hone, ih (by simp), hsep]
      simp [String.append_assoc]

theorem updateFields_eq (data : Record) (hne : data ≠ [])
    (h : ∀ cv ∈ data, chunkOk (pieceStr cv) = true) :
    updateFields data = sepByComma (data.map pieceStr) := by
  unfold updateFields
  rw [foldl_piece_append data "", String.empty_append]
  rw [trailJoin_eq_sep _ (by simpa using hne)]
  exact stripChar_comma_append _ (sepByComma_chunkOk _ (by simpa using hne)
    (fun p hp => by
      obtain ⟨cv, hcv, rfl⟩ := List.mem_map.mp hp
      exact h cv hcv))

/-- C8 counterexample: the statement text does not match the spec's shapes —
select in fact uses newline separators and has no trailing semicolon, and
update in addition writes the where clause as `id ='<id>'` with no space
after the `=`. -/
theorem statement_text_differs_from_spec_shape :
    selectSql "npcs" "1" = "select *\nfrom npcs\nwhere id = '1'" ∧
    specSelectShape "npcs" "1" = "select * from npcs where id = '1';" ∧
    selectSql "npcs" "1" ≠ specSelectShape "npcs" "1" ∧
    updateSql "npcs" [("id", Value.str "1"), ("name", Value.str "Helga")] =
      "update npcs\nset id = '1',name = 'Helga'\nwhere id ='1'" ∧
    updateSql "npcs" [("id", Value.str "1"), ("name", Value.str "Helga")] ≠
      specUpdateShape "npcs" "id = '1',name = 'Helga'" "1" :=
  ⟨by decide, by decide, by decide, by decide, by decide⟩

/-- C8 amended: the exact statement shapes: update text is
`update <name>`, newline, `set ` and the comma-joined `col = literal` pieces,
newline, `where id ='<id>'` — the id compared as its quoted string form, no
space after the `=` of the where clause, no trailing semicolon; select text is
`select *`, newline, `from <name>`, newline, `where id = '<id>'` with no
trailing semicolon. -/
theorem update_select_statement_shapes (name : String) (data : Record) (i : String)
    (hne : data ≠ []) (h : ∀ cv ∈ data, chunkOk (pieceStr cv) = true) :
    updateSql name data =
      "update " ++ name ++ "\nset " ++ sepByComma (data.map pieceStr) ++ "\nwhere id ='" ++
        extractId data ++ "'" ∧
    selectSql name i = "select *\nfrom " ++ name ++ "\nwhere id = '" ++ i ++ "'" :=
  ⟨by unfold updateSql; rw [updateFields_eq data hne h], rfl⟩

/-- C8 witness: the shapes at the example table and record. -/
theorem update_select_statement_shapes_witness :
    updateSql "npcs" [("id", Value.str "1"), ("name", Value.str "Helga")] =
      "update " ++ "npcs" ++ "\nset " ++
        sepByComma ([("id", Value.str "1"), ("name", Value.str "Helga")].map pieceStr) ++
        "\nwhere id ='" ++
        extractId [("id", Value.str "1"), ("name", Value.str "Helga")] ++ "'" ∧
    selectSql "npcs" "1" = "select *\nfrom " ++ "npcs" ++ "\nwhere id = '" ++ "1" ++ "'" :=
  update_select_statement_shapes "npcs" [("id", Value.str "1"), ("name", Value.str "Helga")]
    "1" (by decide) (by decide)

end PySqlite
